import Mathlib

/-!
# Curve25519 dispatch and validation layer (crypto/zinc/curve25519/curve25519.c)

A shallow embedding of the key-agreement entry points of `curve25519.c`:
`normalize_secret`, `curve25519`, `curve25519_generate_public` and
`curve25519_generate_secret`, and of its init function.  Buffers of `CURVE25519_KEY_SIZE` bytes are total
maps from the 32 indices to bytes; the scalar-multiplication backends, whose
bodies live in other files, are parameters of the entry points; every entry
point returns the flag it returns in C together with the final content of its
output buffer and the list of backend operations it invoked.
-/

namespace Curve25519

/-! ## Data model -/

/-- The C type `u8`: an unsigned 8-bit value. -/
abbrev u8 := Fin 256

/-- Truncation of a natural number to `u8` (the value modulo `2^8`). -/
def to_u8 (n : Nat) : u8 := ⟨n % 256, Nat.mod_lt n (by decide)⟩

/-- Modelled from the spec: CURVE25519_KEY_SIZE is declared in zinc/curve25519.h,
which is not among the sources; every scalar, public value and shared secret is a
fixed-size sequence of 32 bytes (spec section 3). -/
abbrev CURVE25519_KEY_SIZE : Nat := 32

/-- A buffer `u8 buf[CURVE25519_KEY_SIZE]`: one byte at each index `0 .. 31`. -/
abbrev Key := Fin CURVE25519_KEY_SIZE → u8

/-- The constant `static const u8 null_point[CURVE25519_KEY_SIZE] = { 0 }`: all bytes zero. -/
def null_point : Key := fun _ => 0

/-- The constant `static const u8 basepoint[CURVE25519_KEY_SIZE] = { 9 }` of
`curve25519_generate_public`: byte 0 is 9, the remaining 31 bytes are zero. -/
def basepoint : Key := fun i => if i = 0 then 9 else 0

/-- Modelled from the spec: crypto_memneq is declared in crypto/algapi.h, which is
not among the sources; it is the constant-time comparison collaborator of spec
section 6 and returns true exactly when the first `size` bytes of `a` and `b`
differ somewhere. -/
def crypto_memneq (a b : Key) (size : Nat) : Bool :=
  decide (∃ i : Fin CURVE25519_KEY_SIZE, i.val < size ∧ a i ≠ b i)

/-! ## Backends -/

/-- The three scalar-multiplication operations the entry points dispatch to.

* `curve25519_base_arch pub secret` and `curve25519_arch mypublic secret basepoint`
  are the architecture glue: they receive the current content of the output
  buffer and return the content they leave in it together with their `bool`
  result (`false` meaning "not available"); they may leave anything in the
  buffer, also when they return `false`.
* `curve25519_generic secret basepoint` is the portable implementation (its body
  is in curve25519-hacl64.h / curve25519-fiat32.h, not among the sources).  It
  returns `void`; following the backend contract of spec section 4.4,
  `multiply(scalar, point) -> point`, it is total and the 32 bytes it stores in
  the output buffer are a function of the scalar and the point only. -/
structure Backend where
  curve25519_base_arch : Key → Key → Key × Bool
  curve25519_arch : Key → Key → Key → Key × Bool
  curve25519_generic : Key → Key → Key

/-- One invocation of a backend operation, with the inputs it was given. -/
inductive Call where
  | base_arch (secret : Key)
  | arch (secret basepoint : Key)
  | generic (secret basepoint : Key)

/-- Whether a logged call is a call of `curve25519_generic`. -/
def Call.isGeneric : Call → Bool
  | .generic _ _ => true
  | _ => false

/-- Whether a logged call is a call of `curve25519_arch`. -/
def Call.isArch : Call → Bool
  | .arch _ _ => true
  | _ => false

/-- Whether a logged call is a call of `curve25519_base_arch`. -/
def Call.isBaseArch : Call → Bool
  | .base_arch _ => true
  | _ => false

/-- What a call of an entry point leaves behind: the returned `bool`, the final
content of the output buffer, and the backend operations invoked, in order. -/
structure Outcome where
  ret : Bool
  out : Key
  calls : List Call

/-- The stub glue compiled when neither CONFIG_ZINC_ARCH_X86_64 nor
CONFIG_ZINC_ARCH_ARM is defined (lines 27-40): both accelerated operations
`return false` and do not touch the output buffer. -/
def generic_only (curve25519_generic : Key → Key → Key) : Backend where
  curve25519_base_arch := fun pub _ => (pub, false)
  curve25519_arch := fun mypublic _ _ => (mypublic, false)
  curve25519_generic := curve25519_generic

/-! ## The entry points -/

/-- The function `normalize_secret`:
`secret[0] &= 248; secret[31] &= 127; secret[31] |= 64;`. -/
def normalize_secret (secret : Key) : Key :=
  let secret := Function.update secret 0 (to_u8 ((secret 0).val &&& 248))
  let secret := Function.update secret 31 (to_u8 ((secret 31).val &&& 127))
  let secret := Function.update secret 31 (to_u8 ((secret 31).val ||| 64))
  secret

/-- The function `curve25519`:
`if (!curve25519_arch(mypublic, secret, basepoint))
     curve25519_generic(mypublic, secret, basepoint);
 return crypto_memneq(mypublic, null_point, CURVE25519_KEY_SIZE);` -/
def curve25519 (be : Backend) (mypublic secret basepoint : Key) : Outcome :=
  let r := be.curve25519_arch mypublic secret basepoint
  if !r.2 then
    let mypublic := be.curve25519_generic secret basepoint
    { ret := crypto_memneq mypublic null_point CURVE25519_KEY_SIZE
      out := mypublic
      calls := [Call.arch secret basepoint, Call.generic secret basepoint] }
  else
    { ret := crypto_memneq r.1 null_point CURVE25519_KEY_SIZE
      out := r.1
      calls := [Call.arch secret basepoint] }

/-- The function `curve25519_generate_public`:
`if (unlikely(!crypto_memneq(secret, null_point, CURVE25519_KEY_SIZE)))
     return false;
 if (curve25519_base_arch(pub, secret))
     return crypto_memneq(pub, null_point, CURVE25519_KEY_SIZE);
 return curve25519(pub, secret, basepoint);` -/
def curve25519_generate_public (be : Backend) (pub secret : Key) : Outcome :=
  if !crypto_memneq secret null_point CURVE25519_KEY_SIZE then
    { ret := false, out := pub, calls := [] }
  else
    let r := be.curve25519_base_arch pub secret
    if r.2 then
      { ret := crypto_memneq r.1 null_point CURVE25519_KEY_SIZE
        out := r.1
        calls := [Call.base_arch secret] }
    else
      let o := curve25519 be r.1 secret basepoint
      { ret := o.ret, out := o.out, calls := Call.base_arch secret :: o.calls }

/-- Modelled from the spec: get_random_bytes_wait is declared in linux/random.h,
which is not among the sources; it is the entropy collaborator of spec sections
4.1 and 6 and overwrites the first `nbytes` bytes of `buf` with the random bytes
`r` it draws. -/
def get_random_bytes_wait (r : Key) (buf : Key) (nbytes : Nat) : Key :=
  fun i => if i.val < nbytes then r i else buf i

/-- The function `curve25519_generate_secret`:
`get_random_bytes_wait(secret, CURVE25519_KEY_SIZE); normalize_secret(secret);`,
where `r` is what the entropy source delivers. -/
def curve25519_generate_secret (r : Key) (secret : Key) : Key :=
  let secret := get_random_bytes_wait r secret CURVE25519_KEY_SIZE
  let secret := normalize_secret secret
  secret

/-- The clamping pattern of spec section 3 on a 32-byte scalar:
`byte0 & 0x07 == 0`, `byte31 & 0x80 == 0`, `byte31 & 0x40 == 0x40`. -/
def clamped (y : Key) : Prop :=
  (y 0).val &&& 0x07 = 0 ∧ (y 31).val &&& 0x80 = 0 ∧ (y 31).val &&& 0x40 = 0x40

instance (y : Key) : Decidable (clamped y) := by
  unfold clamped; infer_instance

/-- The reference clamp, written from spec section 4.2: byte 0 is byte 0 AND 0xF8,
byte 31 is (byte 31 AND 0x7F) OR 0x40, every other byte is kept. -/
def clamp_reference (x : Key) : Key :=
  fun i =>
    if i = 0 then to_u8 ((x 0).val &&& 0xF8)
    else if i = 31 then to_u8 (((x 31).val &&& 0x7F) ||| 0x40)
    else x i

/-- The assumption of backend agreement for the general glue: whenever
`curve25519_arch` reports success, the 32 bytes it wrote are those the generic
implementation computes from the same scalar and point. -/
def arch_agrees (be : Backend) : Prop :=
  ∀ buf secret point : Key,
    (be.curve25519_arch buf secret point).2 = true →
      (be.curve25519_arch buf secret point).1 = be.curve25519_generic secret point

/-- The assumption of backend agreement for the base-point glue: whenever
`curve25519_base_arch` reports success, the 32 bytes it wrote are those the
generic implementation computes from the same scalar and the point `9||0^31`. -/
def base_arch_agrees (be : Backend) : Prop :=
  ∀ buf secret : Key,
    (be.curve25519_base_arch buf secret).2 = true →
      (be.curve25519_base_arch buf secret).1 = be.curve25519_generic secret basepoint

/-! ## Startup -/

/-- The function `curve25519_mod_init` (named `mod_init` when
COMPAT_ZINC_IS_A_MODULE is defined):
`if (!nosimd) curve25519_fpu_init();`, then, only when CONFIG_ZINC_SELFTEST is
defined, `if (WARN_ON(!curve25519_selftest())) return -ENOTRECOVERABLE;`, then
`return 0;`.

* `CONFIG_ZINC_SELFTEST` tells whether the build defines that symbol.
* `ENOTRECOVERABLE` is the errno constant of the kernel headers, which are not
  among the sources.
* `curve25519_selftest` (its body is in selftest/curve25519.h, not among the
  sources) receives whether `curve25519_fpu_init` has run, the only thing the
  function does before calling it, and returns its `bool`. -/
def curve25519_mod_init (CONFIG_ZINC_SELFTEST : Bool) (ENOTRECOVERABLE : Int)
    (curve25519_selftest : Bool → Bool) (nosimd : Bool) : Int :=
  let fpu_init_done := if !nosimd then true else false
  if CONFIG_ZINC_SELFTEST then
    if !curve25519_selftest fpu_init_done then -ENOTRECOVERABLE else 0
  else 0

/-! ## Scalars as integers -/

/-- The little-endian integer value of a 32-byte string:
the sum of `byte[i] * 256^i`. -/
def le_value (y : Key) : Nat :=
  ∑ i : Fin CURVE25519_KEY_SIZE, (y i).val * 256 ^ i.val

/-- The Diffie-Hellman part of the backend contract, on the generic
implementation: for clamped scalars `a` and `b`, multiplying the public value of
`b` by `a` gives what multiplying the public value of `a` by `b` gives. -/
def generic_commutes (g : Key → Key → Key) : Prop :=
  ∀ a b : Key, clamped a → clamped b →
    g a (g b basepoint) = g b (g a basepoint)

/-! ## A sample configuration

A small concrete backend on which the statements below are instantiated.  Its
"multiplication" is a toy (bytewise addition modulo 256), not the curve
arithmetic; only the dispatch layer is under study. -/

/-- A toy portable multiplication: bytewise sum of scalar and point modulo 256. -/
def sample_generic (secret basepoint : Key) : Key :=
  fun i => to_u8 ((secret i).val + (basepoint i).val)

/-- A toy configuration with glue.  The base-point glue is available when byte 0
of the secret is even, the general glue when byte 1 of the secret is even; when
available they store what `sample_generic` would, when unavailable they scribble
the value 255 over the whole output buffer before returning false. -/
def sample_backend : Backend where
  curve25519_base_arch := fun _ secret =>
    if (secret 0).val % 2 = 0 then (sample_generic secret basepoint, true)
    else (fun _ => 255, false)
  curve25519_arch := fun _ secret point =>
    if (secret 1).val % 2 = 0 then (sample_generic secret point, true)
    else (fun _ => 255, false)
  curve25519_generic := sample_generic

/-- A sample secret whose bytes 0 and 1 are odd, so that `sample_backend` has no
glue available for it. -/
def sample_odd_secret : Key := fun i => if i.val < 2 then 1 else 0

/-- A sample clamped secret: the clamp of the all-zero string (byte 31 is 64). -/
def sample_clamped_a : Key := normalize_secret null_point

/-- A second sample clamped secret: the clamp of the all-255 string. -/
def sample_clamped_b : Key := normalize_secret (fun _ => 255)

/-- A self-test that fails whether or not the FPU initialisation has run. -/
def sample_failing_selftest : Bool → Bool := fun _ => false

/-! ## Basic facts -/

theorem crypto_memneq_full (a b : Key) :
    crypto_memneq a b CURVE25519_KEY_SIZE = true ↔ a ≠ b := by
  unfold crypto_memneq
  rw [decide_eq_true_iff, Function.ne_iff]
  constructor
  · rintro ⟨i, _, h⟩
    exact ⟨i, h⟩
  · rintro ⟨i, h⟩
    exact ⟨i, i.isLt, h⟩

theorem crypto_memneq_self (a : Key) :
    crypto_memneq a a CURVE25519_KEY_SIZE = false := by
  cases h : crypto_memneq a a CURVE25519_KEY_SIZE
  · rfl
  · exact absurd rfl ((crypto_memneq_full a a).1 h)

theorem crypto_memneq_of_ne {a b : Key} (h : a ≠ b) :
    crypto_memneq a b CURVE25519_KEY_SIZE = true :=
  (crypto_memneq_full a b).2 h

theorem basepoint_ne_null : basepoint ≠ null_point :=
  fun h => absurd (congrFun h 0) (by decide)

/-- The flag `curve25519` returns is the comparison of its final buffer with the
null point, whichever backend filled the buffer. -/
theorem curve25519_ret_eq (be : Backend) (mypublic secret point : Key) :
    (curve25519 be mypublic secret point).ret =
      crypto_memneq (curve25519 be mypublic secret point).out null_point
        CURVE25519_KEY_SIZE := by
  unfold curve25519
  cases h : (be.curve25519_arch mypublic secret point).2 <;> simp [h]

/-- Past the null-secret guard, the flag of `curve25519_generate_public` is the
comparison of its final buffer with the null point. -/
theorem generate_public_ret_eq (be : Backend) (pub secret : Key)
    (hs : secret ≠ null_point) :
    (curve25519_generate_public be pub secret).ret =
      crypto_memneq (curve25519_generate_public be pub secret).out null_point
        CURVE25519_KEY_SIZE := by
  unfold curve25519_generate_public
  rw [crypto_memneq_of_ne hs]
  cases h : (be.curve25519_base_arch pub secret).2
  · simp [h, curve25519_ret_eq]
  · simp [h]

/-- When the general glue agrees with the generic implementation, the buffer and
flag of `curve25519` are those of the generic implementation, whatever the
buffer held before. -/
theorem curve25519_of_arch_agrees (be : Backend) (h : arch_agrees be)
    (buf secret point : Key) :
    (curve25519 be buf secret point).out = be.curve25519_generic secret point ∧
    (curve25519 be buf secret point).ret =
      crypto_memneq (be.curve25519_generic secret point) null_point CURVE25519_KEY_SIZE := by
  have ha := h buf secret point
  unfold curve25519
  cases hb : (be.curve25519_arch buf secret point).2
  · simp [hb]
  · simp [hb, ha hb]

theorem generic_only_arch_agrees (g : Key → Key → Key) : arch_agrees (generic_only g) := by
  intro buf secret point h
  simp [generic_only] at h

theorem sample_odd_secret_ne_null : sample_odd_secret ≠ null_point :=
  fun h => absurd (congrFun h 0) (by decide)

theorem sample_arch_agrees : arch_agrees sample_backend := by
  intro buf secret point h
  simp only [sample_backend] at h ⊢
  split at h
  · rename_i hc
    simp [hc]
  · simp at h

theorem sample_base_arch_agrees : base_arch_agrees sample_backend := by
  intro buf secret h
  simp only [sample_backend] at h ⊢
  split at h
  · rename_i hc
    simp [hc]
  · simp at h

/-! ### Bytes of a clamped scalar -/

set_option maxRecDepth 100000

theorem normalize_secret_zero (x : Key) :
    normalize_secret x 0 = to_u8 ((x 0).val &&& 248) := by
  simp [normalize_secret, Function.update]

theorem normalize_secret_last (x : Key) :
    normalize_secret x 31 = to_u8 ((to_u8 ((x 31).val &&& 127)).val ||| 64) := by
  simp [normalize_secret, Function.update]

theorem normalize_secret_other (x : Key) (i : Fin CURVE25519_KEY_SIZE)
    (h0 : i ≠ 0) (h31 : i ≠ 31) : normalize_secret x i = x i := by
  simp [normalize_secret, Function.update, h0, h31]

theorem byte_and_248 : ∀ b : u8, (to_u8 (b.val &&& 248)).val = b.val &&& 248 := by
  decide

theorem byte_and_127_or_64 :
    ∀ b : u8, (to_u8 ((to_u8 (b.val &&& 127)).val ||| 64)).val = (b.val &&& 127) ||| 64 := by
  decide

theorem byte_low_bits_clear : ∀ b : u8, (b.val &&& 248) &&& 7 = 0 := by
  decide

theorem byte_top_bit_clear : ∀ b : u8, ((b.val &&& 127) ||| 64) &&& 128 = 0 := by
  decide

theorem byte_bit6_set : ∀ b : u8, ((b.val &&& 127) ||| 64) &&& 64 = 64 := by
  decide

theorem byte_and_248_idem : ∀ b : u8, (b.val &&& 248) &&& 248 = b.val &&& 248 := by
  decide

theorem byte_and_127_or_64_idem :
    ∀ b : u8, ((((b.val &&& 127) ||| 64) &&& 127) ||| 64) = (b.val &&& 127) ||| 64 := by
  decide

theorem normalize_secret_clamped (x : Key) : clamped (normalize_secret x) := by
  unfold clamped
  rw [normalize_secret_zero, normalize_secret_last, byte_and_248, byte_and_127_or_64]
  exact ⟨byte_low_bits_clear _, byte_top_bit_clear _, byte_bit6_set _⟩

/-! ## Null-point rejection -/

/-- C1: for every backend and every initial content of the output buffer,
`curve25519_generate_public` called with the all-zero secret returns false,
invokes no backend operation and leaves the output buffer as it was. -/
theorem generate_public_null_secret (be : Backend) (pub : Key) :
    (curve25519_generate_public be pub null_point).ret = false ∧
    (curve25519_generate_public be pub null_point).calls = [] ∧
    (curve25519_generate_public be pub null_point).out = pub := by
  simp [curve25519_generate_public, crypto_memneq_self]

/-- C2: for every secret, peer value, backend and initial buffer, `curve25519`
returns true exactly when the 32 bytes it leaves in `mypublic` differ from the
null point; the flag depends on nothing else, so the peer value undergoes no
other validation and a successful call never hands back the null point. -/
theorem curve25519_ret_iff_out_ne_null (be : Backend) (mypublic secret peer : Key) :
    (curve25519 be mypublic secret peer).ret = true ↔
      (curve25519 be mypublic secret peer).out ≠ null_point := by
  rw [curve25519_ret_eq, crypto_memneq_full]

/-- C3: for every secret other than the null point, `curve25519_generate_public`
returns true exactly when the public value it wrote is not all-zero, whether the
value came from `curve25519_base_arch` or from the fall-through to `curve25519`. -/
theorem generate_public_ret_iff_out_ne_null (be : Backend) (pub secret : Key)
    (hs : secret ≠ null_point) :
    (curve25519_generate_public be pub secret).ret = true ↔
      (curve25519_generate_public be pub secret).out ≠ null_point := by
  rw [generate_public_ret_eq be pub secret hs, crypto_memneq_full]

theorem generate_public_ret_iff_out_ne_null_witness :
    basepoint ≠ null_point ∧
    ((curve25519_generate_public sample_backend null_point basepoint).ret = true ↔
      (curve25519_generate_public sample_backend null_point basepoint).out ≠ null_point) :=
  ⟨basepoint_ne_null,
   generate_public_ret_iff_out_ne_null sample_backend null_point basepoint basepoint_ne_null⟩

/-! ## The secret clamper -/

/-- C4: for every 32-byte input `x`, `y = normalize_secret x` has the clamping
pattern `y[0] & 0x07 == 0`, `y[31] & 0x80 == 0` and `y[31] & 0x40 == 0x40`. -/
theorem normalize_secret_pattern (x : Key) :
    (normalize_secret x 0).val &&& 0x07 = 0 ∧
    (normalize_secret x 31).val &&& 0x80 = 0 ∧
    (normalize_secret x 31).val &&& 0x40 = 0x40 :=
  normalize_secret_clamped x

/-- C5: `normalize_secret` is idempotent: clamping a clamped scalar changes nothing. -/
theorem normalize_secret_idempotent (x : Key) :
    normalize_secret (normalize_secret x) = normalize_secret x := by
  funext i
  by_cases h0 : i = 0
  · subst h0
    rw [normalize_secret_zero (normalize_secret x), normalize_secret_zero x]
    apply Fin.ext
    rw [byte_and_248, byte_and_248, byte_and_248_idem]
  · by_cases h31 : i = 31
    · subst h31
      rw [normalize_secret_last (normalize_secret x), normalize_secret_last x]
      apply Fin.ext
      rw [byte_and_127_or_64, byte_and_127_or_64, byte_and_127_or_64_idem]
    · rw [normalize_secret_other _ i h0 h31]

/-- C6: `normalize_secret` is the reference clamp of the spec: byte 0 becomes
`x[0] AND 0xF8`, byte 31 becomes `(x[31] AND 0x7F) OR 0x40`, and each of the
bytes 1 to 30 keeps its value. -/
theorem normalize_secret_eq_reference (x : Key) :
    normalize_secret x = clamp_reference x ∧
    (normalize_secret x 0).val = (x 0).val &&& 0xF8 ∧
    (normalize_secret x 31).val = ((x 31).val &&& 0x7F) ||| 0x40 ∧
    ∀ j : Fin 30, normalize_secret x ⟨j.val + 1, Nat.succ_lt_succ (Nat.lt_trans j.isLt (by decide))⟩ =
      x ⟨j.val + 1, Nat.succ_lt_succ (Nat.lt_trans j.isLt (by decide))⟩ := by
  refine ⟨?_, ?_, ?_, ?_⟩
  · funext i
    unfold clamp_reference
    by_cases h0 : i = 0
    · subst h0
      simp [normalize_secret_zero]
    · by_cases h31 : i = 31
      · subst h31
        rw [normalize_secret_last]
        apply Fin.ext
        rw [byte_and_127_or_64]
        simp [to_u8]
        exact (Nat.mod_eq_of_lt (lt_of_eq_of_lt (byte_and_127_or_64 (x 31)).symm
          (Fin.isLt _))).symm
      · rw [normalize_secret_other x i h0 h31]
        simp [h0, h31]
  · rw [normalize_secret_zero, byte_and_248]
  · rw [normalize_secret_last, byte_and_127_or_64]
  · intro j
    apply normalize_secret_other
    · intro h
      have h2 : j.val + 1 = 0 := congrArg Fin.val h
      omega
    · intro h
      have h2 : j.val + 1 = 31 := congrArg Fin.val h
      have h3 := j.isLt
      omega

/-! ## The secret generator -/

/-- C7: whatever 32 bytes `r` the entropy source delivers and whatever the buffer
held before, `curve25519_generate_secret` leaves exactly `normalize_secret r` in
the buffer, and that secret has the clamping pattern. -/
theorem generate_secret_eq_normalize (r secret : Key) :
    curve25519_generate_secret r secret = normalize_secret r ∧
    clamped (curve25519_generate_secret r secret) := by
  have h : get_random_bytes_wait r secret CURVE25519_KEY_SIZE = r := by
    funext i
    simp [get_random_bytes_wait, i.isLt]
  have e : curve25519_generate_secret r secret = normalize_secret r := by
    simp only [curve25519_generate_secret, h]
  exact ⟨e, e ▸ normalize_secret_clamped r⟩

/-! ## Backend dispatch -/

/-- C8: for every secret other than the null point, `curve25519_generate_public`
follows the ordered dispatch against the base point `9||0^31`: the output is what
`curve25519_base_arch` wrote if it reports success; otherwise what
`curve25519_arch` wrote for that base point if it reports success; otherwise what
`curve25519_generic` computes for that base point.  The generic implementation is
invoked exactly when both accelerated operations report unavailability. -/
theorem generate_public_dispatch (be : Backend) (pub secret : Key)
    (hs : secret ≠ null_point) :
    ((be.curve25519_base_arch pub secret).2 = true →
      (curve25519_generate_public be pub secret).out = (be.curve25519_base_arch pub secret).1 ∧
      (curve25519_generate_public be pub secret).calls = [Call.base_arch secret]) ∧
    ((be.curve25519_base_arch pub secret).2 = false →
      (be.curve25519_arch (be.curve25519_base_arch pub secret).1 secret basepoint).2 = true →
      (curve25519_generate_public be pub secret).out =
        (be.curve25519_arch (be.curve25519_base_arch pub secret).1 secret basepoint).1 ∧
      (curve25519_generate_public be pub secret).calls =
        [Call.base_arch secret, Call.arch secret basepoint]) ∧
    ((be.curve25519_base_arch pub secret).2 = false →
      (be.curve25519_arch (be.curve25519_base_arch pub secret).1 secret basepoint).2 = false →
      (curve25519_generate_public be pub secret).out = be.curve25519_generic secret basepoint ∧
      (curve25519_generate_public be pub secret).calls =
        [Call.base_arch secret, Call.arch secret basepoint, Call.generic secret basepoint]) ∧
    (((curve25519_generate_public be pub secret).calls.any Call.isGeneric = true) ↔
      ((be.curve25519_base_arch pub secret).2 = false ∧
       (be.curve25519_arch (be.curve25519_base_arch pub secret).1 secret basepoint).2 = false)) ∧
    basepoint 0 = 9 ∧ (∀ j : Fin 31, basepoint j.succ = 0) := by
  unfold curve25519_generate_public curve25519
  rw [crypto_memneq_of_ne hs]
  refine ⟨?_, ?_, ?_, ?_, rfl, ?_⟩
  · intro hb
    simp [hb]
  · intro hb ha
    simp [hb, ha]
  · intro hb ha
    simp [hb, ha]
  · cases hb : (be.curve25519_base_arch pub secret).2
    · cases ha : (be.curve25519_arch (be.curve25519_base_arch pub secret).1 secret basepoint).2 <;>
        simp [hb, ha, Call.isGeneric]
    · simp [hb, Call.isGeneric]
  · intro j
    simp [basepoint, Fin.succ_ne_zero]

theorem generate_public_dispatch_witness :
    sample_odd_secret ≠ null_point ∧
    (curve25519_generate_public sample_backend null_point sample_odd_secret).out =
      sample_generic sample_odd_secret basepoint ∧
    (curve25519_generate_public sample_backend null_point sample_odd_secret).calls =
      [Call.base_arch sample_odd_secret, Call.arch sample_odd_secret basepoint,
       Call.generic sample_odd_secret basepoint] :=
  ⟨sample_odd_secret_ne_null,
   (generate_public_dispatch sample_backend null_point sample_odd_secret
      sample_odd_secret_ne_null).2.2.1 rfl rfl⟩

/-- C9: `curve25519` multiplies by the peer value: when `curve25519_arch` reports
success the output is what it wrote and `curve25519_generic` is not run; when it
reports false the output and the returned flag are those of
`curve25519_generic secret peer` alone, whatever `curve25519_arch` left in the
buffer, so unavailability is never by itself a failure. -/
theorem curve25519_dispatch (be : Backend) (mypublic secret peer : Key) :
    ((be.curve25519_arch mypublic secret peer).2 = true →
      (curve25519 be mypublic secret peer).out = (be.curve25519_arch mypublic secret peer).1 ∧
      (curve25519 be mypublic secret peer).calls = [Call.arch secret peer] ∧
      (curve25519 be mypublic secret peer).calls.any Call.isGeneric = false) ∧
    ((be.curve25519_arch mypublic secret peer).2 = false →
      (curve25519 be mypublic secret peer).out = be.curve25519_generic secret peer ∧
      (curve25519 be mypublic secret peer).ret =
        crypto_memneq (be.curve25519_generic secret peer) null_point CURVE25519_KEY_SIZE ∧
      (curve25519 be mypublic secret peer).calls =
        [Call.arch secret peer, Call.generic secret peer]) := by
  unfold curve25519
  constructor
  · intro ha
    simp [ha, Call.isGeneric]
  · intro ha
    simp [ha]

theorem curve25519_dispatch_witness :
    ((sample_backend.curve25519_arch null_point basepoint sample_odd_secret).2 = true ∧
      (curve25519 sample_backend null_point basepoint sample_odd_secret).out =
        (sample_backend.curve25519_arch null_point basepoint sample_odd_secret).1) ∧
    ((sample_backend.curve25519_arch null_point sample_odd_secret basepoint).2 = false ∧
      (curve25519 sample_backend null_point sample_odd_secret basepoint).out =
        sample_generic sample_odd_secret basepoint ∧
      (curve25519 sample_backend null_point sample_odd_secret basepoint).ret =
        crypto_memneq (sample_generic sample_odd_secret basepoint) null_point
          CURVE25519_KEY_SIZE) :=
  ⟨⟨rfl, ((curve25519_dispatch sample_backend null_point basepoint sample_odd_secret).1 rfl).1⟩,
   ⟨rfl,
    ((curve25519_dispatch sample_backend null_point sample_odd_secret basepoint).2 rfl).1,
    ((curve25519_dispatch sample_backend null_point sample_odd_secret basepoint).2 rfl).2.1⟩⟩

/-- C10: backend-fallback equivalence.  If each accelerated operation, whenever it
reports success, writes the bytes the generic implementation would, then for all
inputs `curve25519` and `curve25519_generate_public` leave the same output bytes
and return the same flag as under the generic-only configuration (stub glue that
returns false and writes nothing). -/
theorem backend_fallback_equivalence (be : Backend)
    (h_arch : arch_agrees be) (h_base : base_arch_agrees be)
    (buf secret point : Key) :
    ((curve25519 be buf secret point).out =
        (curve25519 (generic_only be.curve25519_generic) buf secret point).out ∧
     (curve25519 be buf secret point).ret =
        (curve25519 (generic_only be.curve25519_generic) buf secret point).ret) ∧
    ((curve25519_generate_public be buf secret).out =
        (curve25519_generate_public (generic_only be.curve25519_generic) buf secret).out ∧
     (curve25519_generate_public be buf secret).ret =
        (curve25519_generate_public (generic_only be.curve25519_generic) buf secret).ret) := by
  have hg := curve25519_of_arch_agrees (generic_only be.curve25519_generic)
    (generic_only_arch_agrees be.curve25519_generic)
  have hgen : (generic_only be.curve25519_generic).curve25519_generic =
      be.curve25519_generic := rfl
  constructor
  · have h1 := curve25519_of_arch_agrees be h_arch buf secret point
    have h2 := hg buf secret point
    rw [hgen] at h2
    exact ⟨h1.1.trans h2.1.symm, h1.2.trans h2.2.symm⟩
  · unfold curve25519_generate_public
    by_cases hs : secret = null_point
    · subst hs
      simp [crypto_memneq_self]
    · rw [crypto_memneq_of_ne hs]
      have hstub : ((generic_only be.curve25519_generic).curve25519_base_arch buf secret) =
          (buf, false) := rfl
      have h2 := hg buf secret basepoint
      rw [hgen] at h2
      cases hb : (be.curve25519_base_arch buf secret).2
      · have h1 := curve25519_of_arch_agrees be h_arch
          (be.curve25519_base_arch buf secret).1 secret basepoint
        simp only [hb, hstub, Bool.not_true, Bool.false_eq_true, if_false]
        exact ⟨h1.1.trans h2.1.symm, h1.2.trans h2.2.symm⟩
      · have h1 := h_base buf secret hb
        simp only [hb, hstub, Bool.not_true, Bool.false_eq_true, if_false, if_true]
        rw [h1]
        exact ⟨h2.1.symm, h2.2.symm⟩

theorem backend_fallback_equivalence_witness :
    arch_agrees sample_backend ∧ base_arch_agrees sample_backend ∧
    ((curve25519 sample_backend null_point basepoint sample_odd_secret).out =
        (curve25519 (generic_only sample_generic) null_point basepoint sample_odd_secret).out ∧
     (curve25519 sample_backend null_point basepoint sample_odd_secret).ret =
        (curve25519 (generic_only sample_generic) null_point basepoint sample_odd_secret).ret) ∧
    ((curve25519_generate_public sample_backend null_point basepoint).out =
        (curve25519_generate_public (generic_only sample_generic) null_point basepoint).out ∧
     (curve25519_generate_public sample_backend null_point basepoint).ret =
        (curve25519_generate_public (generic_only sample_generic) null_point basepoint).ret) :=
  ⟨sample_arch_agrees, sample_base_arch_agrees,
   backend_fallback_equivalence sample_backend sample_arch_agrees sample_base_arch_agrees
     null_point basepoint sample_odd_secret⟩

/-! ## Startup gating -/

/-- C11 (as stated, refuted): in a build without CONFIG_ZINC_SELFTEST the init
function returns 0 although the self-test would return false. -/
theorem mod_init_returns_zero_without_selftest :
    curve25519_mod_init false 131 sample_failing_selftest false = 0 ∧
    sample_failing_selftest true = false ∧
    curve25519_mod_init false 131 sample_failing_selftest false ≠ -131 := by
  decide

/-- C11 (amended): in a build with CONFIG_ZINC_SELFTEST, for every value of
`nosimd`, the init function returns 0 exactly when the self-test it runs returns
true, and returns `-ENOTRECOVERABLE` when it returns false; in a build without
CONFIG_ZINC_SELFTEST it returns 0 whatever the self-test would return.  The
self-test runs after `curve25519_fpu_init` exactly when `nosimd` is false. -/
theorem mod_init_gated_by_selftest (ENOTRECOVERABLE : Int) (h : 0 < ENOTRECOVERABLE)
    (curve25519_selftest : Bool → Bool) (nosimd : Bool) :
    (curve25519_mod_init true ENOTRECOVERABLE curve25519_selftest nosimd = 0 ↔
      curve25519_selftest (!nosimd) = true) ∧
    (curve25519_selftest (!nosimd) = false →
      curve25519_mod_init true ENOTRECOVERABLE curve25519_selftest nosimd =
        -ENOTRECOVERABLE) ∧
    curve25519_mod_init false ENOTRECOVERABLE curve25519_selftest nosimd = 0 := by
  have hne : -ENOTRECOVERABLE ≠ 0 := by omega
  unfold curve25519_mod_init
  cases nosimd <;> cases hs : curve25519_selftest _ <;> simp_all

theorem mod_init_gated_by_selftest_witness :
    (0 : Int) < 131 ∧
    ((curve25519_mod_init true 131 sample_failing_selftest false = 0 ↔
      sample_failing_selftest (!false) = true) ∧
    (sample_failing_selftest (!false) = false →
      curve25519_mod_init true 131 sample_failing_selftest false = -131) ∧
    curve25519_mod_init false 131 sample_failing_selftest false = 0) :=
  ⟨by decide, mod_init_gated_by_selftest 131 (by decide) sample_failing_selftest false⟩

/-! ## Where the null secret is rejected -/

/-- C12 (as stated, refuted): `curve25519` called with the all-zero secret does
invoke `curve25519_arch`, and here returns true with a non-null output. -/
theorem curve25519_null_secret_runs_backend :
    (curve25519 sample_backend null_point null_point basepoint).calls =
      [Call.arch null_point basepoint] ∧
    (curve25519 sample_backend null_point null_point basepoint).ret = true ∧
    (curve25519 sample_backend null_point null_point basepoint).out 0 = 9 := by
  refine ⟨rfl, ?_, rfl⟩
  rw [curve25519_ret_eq]
  exact crypto_memneq_of_ne (fun h => absurd (congrFun h 0) (by decide))

/-- C12 (amended): the all-zero secret is rejected before any multiplication by
`curve25519_generate_public` only.  `curve25519` has no such guard: with an
all-zero secret it always invokes `curve25519_arch` on that secret and the peer
value, invokes `curve25519_generic` as well when the glue reports false, and
returns true exactly when the output differs from the null point. -/
theorem null_secret_rejected_by_generate_public_only (be : Backend)
    (buf peer : Key) :
    ((curve25519_generate_public be buf null_point).ret = false ∧
     (curve25519_generate_public be buf null_point).calls = []) ∧
    (curve25519 be buf null_point peer).calls.head? = some (Call.arch null_point peer) ∧
    ((curve25519 be buf null_point peer).calls.any Call.isGeneric = true ↔
      (be.curve25519_arch buf null_point peer).2 = false) ∧
    ((curve25519 be buf null_point peer).ret = true ↔
      (curve25519 be buf null_point peer).out ≠ null_point) := by
  refine ⟨?_, ?_, ?_, ?_⟩
  · simp [curve25519_generate_public, crypto_memneq_self]
  · unfold curve25519
    cases h : (be.curve25519_arch buf null_point peer).2 <;> simp [h]
  · unfold curve25519
    cases h : (be.curve25519_arch buf null_point peer).2 <;> simp [h, Call.isGeneric]
  · rw [curve25519_ret_eq, crypto_memneq_full]

/-! ## The clamped scalar as an integer -/

/-- A little-endian string of `n` bytes has a value below `256^n`. -/
theorem le_sum_lt (n : Nat) (f : Fin n → Nat) (hf : ∀ i, f i < 256) :
    ∑ i : Fin n, f i * 256 ^ i.val < 256 ^ n := by
  induction n with
  | zero => simp
  | succ k ih =>
    rw [Fin.sum_univ_castSucc]
    have h1 := ih (fun i => f i.castSucc) (fun i => hf i.castSucc)
    have h2 : f (Fin.last k) * 256 ^ k ≤ 255 * 256 ^ k :=
      Nat.mul_le_mul_right _ (Nat.le_of_lt_succ (hf (Fin.last k)))
    simp only [Fin.coe_castSucc, Fin.val_last] at h1 ⊢
    rw [pow_succ]
    linarith

/-- The value of a 32-byte string: the value of its low 31 bytes plus byte 31
times `256^31`. -/
theorem le_value_split_last (y : Key) :
    le_value y =
      (∑ i : Fin 31, (y i.castSucc).val * 256 ^ i.val) + (y 31).val * 256 ^ 31 := by
  unfold le_value
  rw [Fin.sum_univ_castSucc]
  simp only [Fin.coe_castSucc, Fin.val_last]
  have hl : Fin.last 31 = (31 : Fin CURVE25519_KEY_SIZE) := rfl
  rw [hl]

/-- The value of a 32-byte string: byte 0 plus a multiple of 256. -/
theorem le_value_split_first (y : Key) :
    le_value y =
      (y 0).val + 256 * ∑ i : Fin 31, (y i.succ).val * 256 ^ i.val := by
  unfold le_value
  rw [Fin.sum_univ_succ, Finset.mul_sum]
  have h0 : (y 0).val * 256 ^ (0 : Fin CURVE25519_KEY_SIZE).val = (y 0).val := by
    simp
  rw [h0]
  refine congrArg (fun t => (y 0).val + t) (Finset.sum_congr rfl ?_)
  intro i _
  simp only [Fin.val_succ]
  ring

theorem byte_and_248_mod_8 : ∀ b : u8, (b.val &&& 248) % 8 = 0 := by
  decide

theorem byte_and_127_or_64_range :
    ∀ b : u8, 64 ≤ ((b.val &&& 127) ||| 64) ∧ ((b.val &&& 127) ||| 64) ≤ 127 := by
  decide

/-- C14: for every 32-byte input `x`, the little-endian integer value `n` of
`normalize_secret x` is a multiple of 8 and satisfies `2^254 <= n < 2^255`. -/
theorem normalize_secret_value_range (x : Key) :
    8 ∣ le_value (normalize_secret x) ∧
    2 ^ 254 ≤ le_value (normalize_secret x) ∧
    le_value (normalize_secret x) < 2 ^ 255 := by
  refine ⟨?_, ?_⟩
  · rw [le_value_split_first, normalize_secret_zero, byte_and_248]
    have h0 := byte_and_248_mod_8 (x 0)
    omega
  · rw [le_value_split_last, normalize_secret_last, byte_and_127_or_64]
    have hlow := le_sum_lt 31 (fun i => (normalize_secret x i.castSucc).val)
      (fun i => (normalize_secret x i.castSucc).isLt)
    simp only [] at hlow
    have hr := byte_and_127_or_64_range (x 31)
    have h1 : 64 * 256 ^ 31 ≤ ((x 31).val &&& 127 ||| 64) * 256 ^ 31 :=
      Nat.mul_le_mul_right _ hr.1
    have h2 : ((x 31).val &&& 127 ||| 64) * 256 ^ 31 ≤ 127 * 256 ^ 31 :=
      Nat.mul_le_mul_right _ hr.2
    have e1 : (2 : Nat) ^ 254 = 64 * 256 ^ 31 := by norm_num
    have e2 : (2 : Nat) ^ 255 = 128 * 256 ^ 31 := by norm_num
    rw [e1, e2]
    constructor
    · omega
    · omega

/-! ## Agreement through the public interface -/

theorem clamped_ne_null {y : Key} (h : clamped y) : y ≠ null_point := by
  intro e
  have h64 := h.2.2
  rw [e] at h64
  exact absurd h64 (by decide)

/-- When both glue operations agree with the generic implementation, the buffer
and flag of `curve25519_generate_public` on a non-null secret are those of the
generic multiplication by the base point. -/
theorem generate_public_of_agrees (be : Backend) (h_arch : arch_agrees be)
    (h_base : base_arch_agrees be) (buf secret : Key) (hs : secret ≠ null_point) :
    (curve25519_generate_public be buf secret).out =
      be.curve25519_generic secret basepoint ∧
    (curve25519_generate_public be buf secret).ret =
      crypto_memneq (be.curve25519_generic secret basepoint) null_point
        CURVE25519_KEY_SIZE := by
  unfold curve25519_generate_public
  rw [crypto_memneq_of_ne hs]
  cases hb : (be.curve25519_base_arch buf secret).2
  · have h1 := curve25519_of_arch_agrees be h_arch
      (be.curve25519_base_arch buf secret).1 secret basepoint
    simp only [hb, Bool.not_true, Bool.false_eq_true, if_false]
    exact h1
  · have h1 := h_base buf secret hb
    simp only [hb, Bool.not_true, Bool.false_eq_true, if_false, if_true]
    rw [h1]
    exact ⟨rfl, rfl⟩

theorem sample_generic_commutes : generic_commutes sample_generic := by
  intro a b _ _
  funext i
  apply Fin.ext
  show ((a i).val + (((b i).val + (basepoint i).val) % 256)) % 256 =
    ((b i).val + (((a i).val + (basepoint i).val) % 256)) % 256
  omega

/-- C15: Diffie-Hellman agreement through the public interface.  With a backend
that satisfies its contract (the glue agrees with the generic implementation
whenever it reports success, and the generic multiplication has the
Diffie-Hellman property on clamped scalars), for all clamped scalars `a` and `b`,
with `A` and `B` the public values `curve25519_generate_public` wrote for them,
`curve25519(a, B)` and `curve25519(b, A)` leave the same 32 bytes and return the
same flag, whatever the buffers held before. -/
theorem dh_agreement (be : Backend) (h_arch : arch_agrees be)
    (h_base : base_arch_agrees be) (h_comm : generic_commutes be.curve25519_generic)
    (a b : Key) (ha : clamped a) (hb : clamped b) (bufA bufB buf1 buf2 : Key) :
    (curve25519 be buf1 a (curve25519_generate_public be bufB b).out).out =
      (curve25519 be buf2 b (curve25519_generate_public be bufA a).out).out ∧
    (curve25519 be buf1 a (curve25519_generate_public be bufB b).out).ret =
      (curve25519 be buf2 b (curve25519_generate_public be bufA a).out).ret := by
  have hA := (generate_public_of_agrees be h_arch h_base bufA a (clamped_ne_null ha)).1
  have hB := (generate_public_of_agrees be h_arch h_base bufB b (clamped_ne_null hb)).1
  have h1 := curve25519_of_arch_agrees be h_arch buf1 a
    (curve25519_generate_public be bufB b).out
  have h2 := curve25519_of_arch_agrees be h_arch buf2 b
    (curve25519_generate_public be bufA a).out
  rw [h1.1, h1.2, h2.1, h2.2, hA, hB, h_comm a b ha hb]
  exact ⟨rfl, rfl⟩

theorem dh_agreement_witness :
    arch_agrees sample_backend ∧ base_arch_agrees sample_backend ∧
    generic_commutes sample_backend.curve25519_generic ∧
    clamped sample_clamped_a ∧ clamped sample_clamped_b ∧
    (curve25519 sample_backend null_point sample_clamped_a
        (curve25519_generate_public sample_backend null_point sample_clamped_b).out).out =
      (curve25519 sample_backend basepoint sample_clamped_b
        (curve25519_generate_public sample_backend basepoint sample_clamped_a).out).out ∧
    (curve25519 sample_backend null_point sample_clamped_a
        (curve25519_generate_public sample_backend null_point sample_clamped_b).out).ret =
      (curve25519 sample_backend basepoint sample_clamped_b
        (curve25519_generate_public sample_backend basepoint sample_clamped_a).out).ret :=
  ⟨sample_arch_agrees, sample_base_arch_agrees, sample_generic_commutes,
   normalize_secret_clamped _, normalize_secret_clamped _,
   dh_agreement sample_backend sample_arch_agrees sample_base_arch_agrees
     sample_generic_commutes sample_clamped_a sample_clamped_b
     (normalize_secret_clamped _) (normalize_secret_clamped _)
     basepoint null_point null_point basepoint⟩

/-! ## The image of the clamper -/

theorem byte_clamped_low_fixed : ∀ b : u8, b.val &&& 7 = 0 → b.val &&& 248 = b.val := by
  decide

theorem byte_clamped_high_fixed :
    ∀ b : u8, b.val &&& 128 = 0 → b.val &&& 64 = 64 → (b.val &&& 127) ||| 64 = b.val := by
  decide

theorem normalize_secret_of_clamped {y : Key} (h : clamped y) : normalize_secret y = y := by
  funext i
  by_cases h0 : i = 0
  · subst h0
    rw [normalize_secret_zero]
    apply Fin.ext
    rw [byte_and_248]
    exact byte_clamped_low_fixed _ h.1
  · by_cases h31 : i = 31
    · subst h31
      rw [normalize_secret_last]
      apply Fin.ext
      rw [byte_and_127_or_64]
      exact byte_clamped_high_fixed _ h.2.1 h.2.2
    · exact normalize_secret_other y i h0 h31

/-- C16: the image of `normalize_secret` is exactly the set of clamped scalars:
`normalize_secret y == y` if and only if `y` has the clamping pattern, and `y` is
the clamp of some input if and only if it has the pattern. -/
theorem normalize_secret_image (y : Key) :
    (normalize_secret y = y ↔ clamped y) ∧
    ((∃ x : Key, normalize_secret x = y) ↔ clamped y) := by
  constructor
  · constructor
    · intro h
      rw [← h]
      exact normalize_secret_clamped y
    · exact normalize_secret_of_clamped
  · constructor
    · rintro ⟨x, hx⟩
      rw [← hx]
      exact normalize_secret_clamped x
    · intro h
      exact ⟨y, normalize_secret_of_clamped h⟩

/-! ## Generated secrets are never null -/

theorem curve25519_generate_secret_eq (r secret : Key) :
    curve25519_generate_secret r secret = normalize_secret r := by
  have h : get_random_bytes_wait r secret CURVE25519_KEY_SIZE = r := by
    funext i
    simp [get_random_bytes_wait, i.isLt]
  simp only [curve25519_generate_secret, h]

/-- C17: for every 32-byte string `r` the entropy source returns (all zeros
included) the secret `curve25519_generate_secret` leaves has a non-zero byte 31,
so it is not the null point, and `curve25519_generate_public` on it passes the
null-secret guard and invokes a backend multiplication, first
`curve25519_base_arch` on that secret. -/
theorem generated_secret_not_null (be : Backend) (r secret pub : Key) :
    curve25519_generate_secret r secret 31 ≠ 0 ∧
    curve25519_generate_secret r secret ≠ null_point ∧
    (curve25519_generate_public be pub (curve25519_generate_secret r secret)).calls.head? =
      some (Call.base_arch (curve25519_generate_secret r secret)) ∧
    (curve25519_generate_public be pub (curve25519_generate_secret r secret)).calls ≠ [] := by
  have hc : clamped (curve25519_generate_secret r secret) := by
    rw [curve25519_generate_secret_eq]
    exact normalize_secret_clamped r
  have hne := clamped_ne_null hc
  have hcalls :
      (curve25519_generate_public be pub (curve25519_generate_secret r secret)).calls.head? =
        some (Call.base_arch (curve25519_generate_secret r secret)) := by
    unfold curve25519_generate_public
    rw [crypto_memneq_of_ne hne]
    cases hb : (be.curve25519_base_arch pub (curve25519_generate_secret r secret)).2 <;>
      simp [hb]
  refine ⟨?_, hne, hcalls, ?_⟩
  · intro h0
    have h64 := hc.2.2
    rw [h0] at h64
    exact absurd h64 (by decide)
  · intro hnil
    rw [hnil] at hcalls
    exact absurd hcalls (by simp)

/-! ## The default configuration -/

/-- C18: with the stub glue (both accelerated operations return false and write
nothing), `curve25519` is `curve25519_generic` followed by the non-null check, and
for every non-null secret `curve25519_generate_public` gives the output and flag
that `curve25519` gives for the base point `9||0^31`. -/
theorem generic_only_default (g : Key → Key → Key) (buf buf2 secret point : Key) :
    ((curve25519 (generic_only g) buf secret point).out = g secret point ∧
     (curve25519 (generic_only g) buf secret point).ret =
        crypto_memneq (g secret point) null_point CURVE25519_KEY_SIZE ∧
     (curve25519 (generic_only g) buf secret point).calls =
        [Call.arch secret point, Call.generic secret point]) ∧
    (secret ≠ null_point →
      (curve25519_generate_public (generic_only g) buf secret).out =
        (curve25519 (generic_only g) buf2 secret basepoint).out ∧
      (curve25519_generate_public (generic_only g) buf secret).ret =
        (curve25519 (generic_only g) buf2 secret basepoint).ret) := by
  constructor
  · simp [curve25519, generic_only]
  · intro hs
    unfold curve25519_generate_public
    rw [crypto_memneq_of_ne hs]
    simp [curve25519, generic_only]

theorem generic_only_default_witness :
    sample_odd_secret ≠ null_point ∧
    (curve25519_generate_public (generic_only sample_generic) null_point
        sample_odd_secret).out =
      (curve25519 (generic_only sample_generic) basepoint sample_odd_secret basepoint).out ∧
    (curve25519_generate_public (generic_only sample_generic) null_point
        sample_odd_secret).ret =
      (curve25519 (generic_only sample_generic) basepoint sample_odd_secret basepoint).ret :=
  ⟨sample_odd_secret_ne_null,
   (generic_only_default sample_generic null_point basepoint sample_odd_secret
      basepoint).2 sample_odd_secret_ne_null⟩

end Curve25519
